import Mathlib

/-!
Shallow embedding of the form-state and validation logic of
`src/frontend/src/App.jsx` (the `WebQA` React component).

The component's state consists of five `useState` variables
(`urls`, `question`, `answer`, `loading`, `errors`); the handlers
(`handleUrlChange`, `addUrlField`, `removeUrlField`, `validateForm`,
`handleSubmit`) are embedded as pure state transformers.  JavaScript
platform primitives used by the source (`String.prototype.trim`, the
WHATWG `URL` constructor, array index assignment, `Array.prototype.filter`
with an index predicate, object key deletion/spread) are modelled by
executable Lean functions documented at their definitions.
-/

namespace WebQA

/-- Characters removed by JS `String.prototype.trim` (the whitespace
code points exercised by this application: space, tab, LF, CR, VT, FF,
and NBSP). -/
def jsWhitespace (c : Char) : Bool :=
  c == ' ' || c == '\t' || c == '\n' || c == '\r' ||
  c == '\x0b' || c == '\x0c' || c == ' '

/-- Model of JS `String.prototype.trim`: drop leading and trailing
whitespace characters. -/
def jsTrim (s : String) : String :=
  String.mk (((s.toList.dropWhile jsWhitespace).reverse.dropWhile jsWhitespace).reverse)

/-- An entry is blank when its trimmed text is empty
(`url.trim() === ""` in the source). -/
def isBlank (u : String) : Bool :=
  jsTrim u == ""

/-- ASCII upper-case letter test, by code point. -/
def isAsciiUpper (c : Char) : Bool :=
  65 ≤ c.toNat && c.toNat ≤ 90

/-- ASCII alphabetic test, by code point. -/
def isAsciiAlpha (c : Char) : Bool :=
  isAsciiUpper c || (97 ≤ c.toNat && c.toNat ≤ 122)

/-- ASCII digit test, by code point. -/
def isAsciiDigit (c : Char) : Bool :=
  48 ≤ c.toNat && c.toNat ≤ 57

/-- ASCII lower-casing of one character, as performed by the WHATWG URL
parser on scheme characters. -/
def asciiLowerChar (c : Char) : Char :=
  if isAsciiUpper c then Char.ofNat (c.toNat + 32) else c

/-- ASCII lower-casing of a character list. -/
def asciiLowerList (l : List Char) : List Char :=
  l.map asciiLowerChar

/-- Code points allowed inside a URL scheme after its first character
(WHATWG URL, scheme state): ASCII alphanumerics, `+`, `-`, `.`. -/
def isSchemeChar (c : Char) : Bool :=
  isAsciiAlpha c || isAsciiDigit c || c == '+' || c == '-' || c == '.'

/-- Input preprocessing of the WHATWG URL parser: remove every tab and
newline, then strip leading and trailing C0 controls and spaces. -/
def stripURLInput (l : List Char) : List Char :=
  let l1 := l.filter (fun c => !(c == '\t' || c == '\n' || c == '\r'))
  ((l1.dropWhile (fun c => c.toNat ≤ 32)).reverse.dropWhile
    (fun c => c.toNat ≤ 32)).reverse

/-- Scheme parsing of the WHATWG URL parser (scheme start / scheme
states): the longest prefix of scheme code points, which must be
non-empty, must start with an ASCII alpha, and must be followed by `:`.
Returns the raw (not yet lower-cased) scheme and the remainder after the
colon; `none` when the input has no such prefix (with no base URL the
constructor then throws). -/
def schemeSplit (l : List Char) : Option (List Char × List Char) :=
  let pre := l.takeWhile isSchemeChar
  match l.drop pre.length with
  | ':' :: rest =>
    match pre with
    | [] => none
    | c :: _ => if isAsciiAlpha c then some (pre, rest) else none
  | _ => none

/-- The WHATWG special schemes that require an authority with a
non-empty host (`file` is special too but needs no host). -/
def specialNeedsHost (sch : List Char) : Bool :=
  sch == "http".toList || sch == "https".toList || sch == "ws".toList ||
  sch == "wss".toList || sch == "ftp".toList

/-- Authority/host check of the WHATWG parser, restricted to the
fragment this application exercises: after the scheme's colon, skip the
slash run, take the authority up to the next `/`, `\`, `?` or `#`, drop
a userinfo part up to the last `@` and a `:port` suffix; the remaining
host must be non-empty and contain no space. -/
def hostOk (rest : List Char) : Bool :=
  let afterSlashes := rest.dropWhile (fun c => c == '/' || c == '\\')
  let auth := afterSlashes.takeWhile
    (fun c => !(c == '/' || c == '\\' || c == '?' || c == '#'))
  let afterUser := (auth.reverse.takeWhile (fun c => !(c == '@'))).reverse
  let host := afterUser.takeWhile (fun c => !(c == ':'))
  !host.isEmpty && !host.contains ' '

/-- Model of `new URL(urlString)` restricted to the `protocol` property
the source reads: parse the scheme, lower-case it (WHATWG scheme state
appends scheme code points lower-cased), require a non-empty host for
the special schemes, and return the protocol `scheme + ":"`; `none`
models the constructor throwing. -/
def jsURLProtocol (s : String) : Option String :=
  match schemeSplit (stripURLInput s.toList) with
  | none => none
  | some (raw, rest) =>
    let sch := asciiLowerList raw
    if specialNeedsHost sch then
      if hostOk rest then some (String.mk (sch ++ [':'])) else none
    else
      some (String.mk (sch ++ [':']))

/-- The raw scheme of a string as written, before the parser's
lower-casing; `none` when no scheme parses. -/
def rawScheme (s : String) : Option (List Char) :=
  (schemeSplit (stripURLInput s.toList)).map Prod.fst

/-- `isValidUrl` (App.jsx lines 42-49): `new URL(urlString)` succeeds and
`url.protocol === "http:" || url.protocol === "https:"`. -/
def isValidUrl (s : String) : Bool :=
  match jsURLProtocol s with
  | some p => p == "http:" || p == "https:"
  | none => false

/-- `hasValidUrls` (App.jsx lines 51-53):
`urls.some((url) => url.trim() !== "" && isValidUrl(url))`. -/
def hasValidUrls (urls : List String) : Bool :=
  urls.any (fun u => !isBlank u && isValidUrl u)

/-- The `errors` state object (App.jsx lines 36-40): per-index URL error
messages (a JS object keyed by numeric index, modelled as an association
list), the question error and the general error (absent = `""`). -/
structure FormErrors where
  urls : List (Nat × String)
  question : String
  general : String
deriving DecidableEq

/-- The initial/cleared errors value `{ urls: {}, question: "", general: "" }`. -/
def emptyErrors : FormErrors :=
  { urls := [], question := "", general := "" }

/-- JS `delete obj[i]` on the numeric-keyed error object. -/
def eraseKey (m : List (Nat × String)) (i : Nat) : List (Nat × String) :=
  m.filter (fun p => p.1 != i)

/-- JS `{ ...obj, [i]: v }` on the numeric-keyed error object: the key
`i` ends up bound to `v`, all other keys keep their values. -/
def setKey (m : List (Nat × String)) (i : Nat) (v : String) : List (Nat × String) :=
  eraseKey m i ++ [(i, v)]

/-- Reading `obj[i]` from the numeric-keyed error object: the message
recorded for index `i`, if any. -/
def lookupKey (m : List (Nat × String)) (i : Nat) : Option String :=
  (m.find? (fun p => p.1 == i)).map Prod.snd

/-- The whole component state: the five `useState` variables of `WebQA`
(App.jsx lines 32-40). -/
structure AppState where
  urls : List String
  question : String
  answer : String
  loading : Bool
  errors : FormErrors
deriving DecidableEq

/-- The initial state (App.jsx lines 32-40): one blank URL entry, empty
question and answer, not loading, no errors. -/
def initialState : AppState :=
  { urls := [""], question := "", answer := "", loading := false,
    errors := emptyErrors }

/-- The URL error message of the source. -/
def urlErrMsg : String :=
  "Please enter a valid URL (e.g., https://example.com)"

/-- JS array index assignment `newUrls[index] = value` for a natural
index: in range it replaces the element; past the end it grows the array
to length `index + 1`, the gap filling with holes (which read back as
`undefined`, represented by the marker below — the UI only assigns at
indices of rendered fields, so reachable states never contain one). -/
def jsHole : String :=
  "\u0000undefined"

/-- JS array index assignment, see `jsHole`. -/
def jsArraySet (l : List String) (i : Nat) (v : String) : List String :=
  if i < l.length then l.set i v
  else l ++ List.replicate (i - l.length) jsHole ++ [v]

/-- `handleUrlChange` (App.jsx lines 55-73): write the new value at the
index, delete any error recorded for that index, then — if the new value
is non-blank and not a valid URL — record a fresh error for that index.
The source performs this through two `setErrors` calls whose net effect
on the final state is the single update modelled here. -/
def handleUrlChange (st : AppState) (index : Nat) (value : String) : AppState :=
  let cleared := eraseKey st.errors.urls index
  let newUrlErrs :=
    if !isBlank value && !isValidUrl value then setKey cleared index urlErrMsg
    else cleared
  { st with urls := jsArraySet st.urls index value,
            errors := { st.errors with urls := newUrlErrs } }

/-- `addUrlField` (App.jsx lines 75-77): append one blank entry. -/
def addUrlField (st : AppState) : AppState :=
  { st with urls := st.urls ++ [""] }

/-- `urls.filter((_, i) => i !== index)`: drop the element whose
position equals `index`, keep everything else in order. -/
def jsRemoveIdx (l : List String) (idx : Nat) : List String :=
  ((List.enum l).filter (fun p => p.1 != idx)).map Prod.snd

/-- `removeUrlField` (App.jsx lines 79-87): drop the entry at the index;
if the list became empty push one blank entry back; delete any error
recorded for the removed index (without re-keying the others). -/
def removeUrlField (st : AppState) (index : Nat) : AppState :=
  let newUrls := jsRemoveIdx st.urls index
  let newUrls := if newUrls.length = 0 then newUrls ++ [""] else newUrls
  { st with urls := newUrls,
            errors := { st.errors with urls := eraseKey st.errors.urls index } }

/-- One step of the `urls.forEach((url, index) => ...)` loop of
`validateForm`: a non-blank entry that fails the URL check records its
error message under its index and forces `isValid = false`. -/
def checkUrlEntry (acc : FormErrors × Bool) (p : Nat × String) : FormErrors × Bool :=
  if !isBlank p.2 && !isValidUrl p.2 then
    ({ acc.1 with urls := setKey acc.1.urls p.1 urlErrMsg }, false)
  else acc

/-- `validateForm` (App.jsx lines 89-117): start from fresh empty errors
and `isValid = true`; if every entry is blank set the general error and
`isValid = false`, otherwise run the per-entry URL check over the
enumerated entries; finally, if the trimmed question is empty set the
question error and `isValid = false`.  Returns `(isValid, newErrors)`. -/
def validateForm (urls : List String) (question : String) : Bool × FormErrors :=
  let init : FormErrors × Bool := (emptyErrors, true)
  let step1 :=
    if (urls.filter (fun u => !isBlank u)).length = 0 then
      ({ init.1 with general := "Please enter at least one URL" }, false)
    else
      (List.enum urls).foldl checkUrlEntry init
  let step2 :=
    if isBlank question then
      ({ step1.1 with question := "Please enter a question" }, false)
    else step1
  (step2.2, step2.1)

/-- The outcome of one invocation of `handleSubmit` up to the point the
asynchronous answer-service call is (or is not) started: the state after
the synchronous part, whether a service call was issued, and the
`validUrls` snapshot captured for it. -/
structure SubmitOutcome where
  state : AppState
  serviceCalled : Bool
  serviceArgs : Option (List String)
deriving DecidableEq

/-- `handleSubmit` (App.jsx lines 119-138), synchronous prefix: run
`validateForm` (which stores its computed errors); if invalid, return
with no further change and no service call; if valid, set `loading`,
clear errors and the previous answer, snapshot the non-blank valid URLs
and start the service call. -/
def handleSubmitStart (st : AppState) : SubmitOutcome :=
  let v := validateForm st.urls st.question
  let st1 := { st with errors := v.2 }
  if v.1 then
    let validUrls := st.urls.filter (fun u => !isBlank u && isValidUrl u)
    { state := { st1 with loading := true, errors := emptyErrors, answer := "" },
      serviceCalled := true, serviceArgs := some validUrls }
  else
    { state := st1, serviceCalled := false, serviceArgs := none }

/-- The question field's `disabled` prop (App.jsx line 262):
`!hasValidUrls()`. -/
def questionDisabled (st : AppState) : Bool :=
  !hasValidUrls st.urls

/-- The submit button's `disabled` prop (App.jsx line 274):
`loading || !hasValidUrls()`. -/
def submitDisabled (st : AppState) : Bool :=
  st.loading || !hasValidUrls st.urls

/-! ### Helper lemmas -/

theorem isBlank_false {u : String} : isBlank u = false ↔ jsTrim u ≠ "" := by
  simp [isBlank]

theorem checkFold_clean (l : List String) (n : Nat) (acc : FormErrors × Bool)
    (h : ∀ u ∈ l, jsTrim u ≠ "" → isValidUrl u = true) :
    (List.enumFrom n l).foldl checkUrlEntry acc = acc := by
  induction l generalizing n acc with
  | nil => simp [List.enumFrom]
  | cons u us ih =>
    have hcond : (!isBlank u && !isValidUrl u) = false := by
      by_cases hb : isBlank u = true
      · simp [hb]
      · have hv : isValidUrl u = true :=
          h u (by simp) (isBlank_false.mp (Bool.not_eq_true _ ▸ hb))
        simp [hv]
    have hstep : checkUrlEntry acc (n, u) = acc := by
      simp [checkUrlEntry, hcond]
    simp only [List.enumFrom, List.foldl_cons, hstep]
    exact ih (n + 1) acc (fun v hv hne => h v (by simp [hv]) hne)

theorem filter_nonBlank_len_pos (urls : List String) (u0 : String)
    (hmem : u0 ∈ urls) (hne : jsTrim u0 ≠ "") :
    ¬ (urls.filter (fun u => !isBlank u)).length = 0 := by
  intro hlen
  have hnil : urls.filter (fun u => !isBlank u) = [] := List.length_eq_zero.mp hlen
  have := List.filter_eq_nil_iff.mp hnil u0 hmem
  simp [isBlank_false.mpr hne] at this

/-! ### Claims -/

/-- Claim C1: for every URL list containing at least one non-blank entry
and every question whose trimmed text is non-empty, if every non-blank
entry passes the http/https URL check, then `validateForm` returns
`isValid = true` together with empty errors (no url errors, no question
error, no general error). -/
theorem C1_validateForm_allValid (urls : List String) (question : String)
    (hn : ∃ u ∈ urls, jsTrim u ≠ "")
    (hq : jsTrim question ≠ "")
    (hv : ∀ u ∈ urls, jsTrim u ≠ "" → isValidUrl u = true) :
    validateForm urls question = (true, emptyErrors) := by
  obtain ⟨u0, hu0, hu0ne⟩ := hn
  have hfilter := filter_nonBlank_len_pos urls u0 hu0 hu0ne
  have hfold : (List.enum urls).foldl checkUrlEntry (emptyErrors, true)
      = (emptyErrors, true) := checkFold_clean urls 0 _ hv
  have hqb : isBlank question = false := isBlank_false.mpr hq
  simp [validateForm, hfilter, hfold, hqb]

/-- Witness for C1 at a concrete valid input. -/
theorem C1_witness : validateForm ["https://example.com"] "Q" = (true, emptyErrors) :=
  C1_validateForm_allValid _ _ (by decide) (by decide) (by decide)

/-- Claim C2: when every entry's trimmed text is empty, `validateForm`
returns `isValid = false` and the general error
"Please enter at least one URL", whatever the question is, and records
no per-entry URL error. -/
theorem C2_validateForm_allBlank (urls : List String) (question : String)
    (h : ∀ u ∈ urls, jsTrim u = "") :
    (validateForm urls question).1 = false ∧
    (validateForm urls question).2.general = "Please enter at least one URL" ∧
    (validateForm urls question).2.urls = [] := by
  have hfilter : (urls.filter (fun u => !isBlank u)).length = 0 := by
    have hnil : urls.filter (fun u => !isBlank u) = [] := by
      apply List.filter_eq_nil_iff.mpr
      intro u hu
      simp [isBlank, h u hu]
    simp [hnil]
  cases hq : isBlank question <;>
    simp [validateForm, hfilter, hq, emptyErrors]

/-- Witness for C2 at a concrete all-blank list. -/
theorem C2_witness :
    (validateForm ["", "  "] "anything").1 = false ∧
    (validateForm ["", "  "] "anything").2.general = "Please enter at least one URL" ∧
    (validateForm ["", "  "] "anything").2.urls = [] :=
  C2_validateForm_allBlank _ _ (by decide)

/-- Claim C6: `hasValidUrls` returns `true` iff some entry is non-blank
and passes the http/https URL check; whenever it returns `false`, both
the question field and the submit control are disabled. -/
theorem C6_hasValidUrls_iff (st : AppState) :
    (hasValidUrls st.urls = true ↔
      ∃ u ∈ st.urls, jsTrim u ≠ "" ∧ isValidUrl u = true) ∧
    (hasValidUrls st.urls = false →
      questionDisabled st = true ∧ submitDisabled st = true) := by
  constructor
  · simp [hasValidUrls, List.any_eq_true, isBlank]
  · intro h
    constructor <;> simp [questionDisabled, submitDisabled, h]

/-- Witness for C6: on the initial state no entry is valid, and both
controls are disabled. -/
theorem C6_witness :
    questionDisabled initialState = true ∧ submitDisabled initialState = true :=
  (C6_hasValidUrls_iff initialState).2 (by decide)

/-- Claim C7: when `validateForm` reports invalid, `handleSubmit` stores
the computed errors, leaves `loading` and `answer` unchanged, and issues
no answer-service call. -/
theorem C7_invalid_no_call (st : AppState)
    (h : (validateForm st.urls st.question).1 = false) :
    handleSubmitStart st =
      { state := { st with errors := (validateForm st.urls st.question).2 },
        serviceCalled := false, serviceArgs := none } := by
  simp [handleSubmitStart, h]

/-- Witness for C7 at the initial state (blank URL, blank question). -/
theorem C7_witness :
    handleSubmitStart initialState =
      { state := { initialState with
          errors := (validateForm initialState.urls initialState.question).2 },
        serviceCalled := false, serviceArgs := none } :=
  C7_invalid_no_call initialState (by decide)

/-! ### Lemmas about the index-based removal -/

theorem enumFrom_filter_lt (l : List String) (n idx : Nat) (h : idx < n) :
    ((List.enumFrom n l).filter (fun p => p.1 != idx)).map Prod.snd = l := by
  induction l generalizing n with
  | nil => simp [List.enumFrom]
  | cons u us ih =>
    have hne : (n != idx) = true := by simp; omega
    simp only [List.enumFrom, List.filter_cons, hne, if_pos, List.map_cons]
    rw [ih (n + 1) (by omega)]

theorem enumFrom_filter_ge (l : List String) (n idx : Nat) (h : l.length + n ≤ idx) :
    ((List.enumFrom n l).filter (fun p => p.1 != idx)).map Prod.snd = l := by
  induction l generalizing n with
  | nil => simp [List.enumFrom]
  | cons u us ih =>
    have hne : (n != idx) = true := by
      simp only [List.length_cons] at h
      simp; omega
    simp only [List.enumFrom, List.filter_cons, hne, if_pos, List.map_cons]
    rw [ih (n + 1) (by simp only [List.length_cons] at h; omega)]

theorem enumFrom_filter_remove (l : List String) (k n : Nat) :
    ((List.enumFrom n l).filter (fun p => p.1 != (n + k))).map Prod.snd
      = l.eraseIdx k := by
  induction l generalizing n k with
  | nil => simp [List.enumFrom, List.eraseIdx]
  | cons u us ih =>
    cases k with
    | zero =>
      have hdrop : (n != n + 0) = false := by simp
      simp only [List.enumFrom, List.filter_cons, hdrop, List.eraseIdx]
      exact enumFrom_filter_lt us (n + 1) n (by omega)
    | succ k =>
      have hkeep : (n != n + (k + 1)) = true := by simp
      simp only [List.enumFrom, List.filter_cons, hkeep, if_pos, List.map_cons,
        List.eraseIdx]
      have harith : n + (k + 1) = (n + 1) + k := by omega
      rw [harith, ih k (n + 1)]

theorem jsRemoveIdx_eq_eraseIdx (l : List String) (k : Nat) :
    jsRemoveIdx l k = l.eraseIdx k := by
  have := enumFrom_filter_remove l k 0
  simpa [jsRemoveIdx, List.enum] using this

theorem jsRemoveIdx_out_of_range (l : List String) (k : Nat)
    (h : l.length ≤ k) : jsRemoveIdx l k = l := by
  have := enumFrom_filter_ge l 0 k (by omega)
  simpa [jsRemoveIdx, List.enum] using this

theorem eraseIdx_getElem_ge (l : List String) (k j : Nat) (h : k ≤ j) :
    (l.eraseIdx k)[j]? = l[j + 1]? := by
  induction l generalizing k j with
  | nil => simp [List.eraseIdx]
  | cons u us ih =>
    cases k with
    | zero => simp [List.eraseIdx]
    | succ k =>
      cases j with
      | zero => omega
      | succ j =>
        simp only [List.eraseIdx, List.getElem?_cons_succ]
        exact ih k j (by omega)

/-- Claim C3: the URL entry list never becomes empty: each of add,
update and remove keeps the length at least 1 (given the invariant held
before), and removing the only remaining entry leaves exactly one blank
entry. -/
theorem C3_never_empty (st : AppState) (idx : Nat) (v u : String)
    (h1 : 1 ≤ st.urls.length) :
    1 ≤ (addUrlField st).urls.length ∧
    1 ≤ (handleUrlChange st idx v).urls.length ∧
    1 ≤ (removeUrlField st idx).urls.length ∧
    (st.urls = [u] → (removeUrlField st 0).urls = [""]) := by
  refine ⟨?_, ?_, ?_, ?_⟩
  · simp [addUrlField]
  · simp only [handleUrlChange, jsArraySet]
    by_cases h : idx < st.urls.length
    · simpa [h] using h1
    · simp [h]
      omega
  · simp only [removeUrlField]
    by_cases h : (jsRemoveIdx st.urls idx).length = 0
    · simp [h]
    · simp only [h, if_neg, if_false]
      omega
  · intro hu
    simp [removeUrlField, hu, jsRemoveIdx, List.enum, List.enumFrom]

/-- Witness for C3 at a concrete one-entry state. -/
theorem C3_witness :
    1 ≤ (addUrlField { initialState with urls := ["a"] }).urls.length ∧
    1 ≤ (handleUrlChange { initialState with urls := ["a"] } 0 "x").urls.length ∧
    1 ≤ (removeUrlField { initialState with urls := ["a"] } 0).urls.length ∧
    ({ initialState with urls := ["a"] }.urls = ["a"] →
      (removeUrlField { initialState with urls := ["a"] } 0).urls = [""]) :=
  C3_never_empty { initialState with urls := ["a"] } 0 "x" "a" (by decide)

/-- Claim C5 counterexample: at the concrete one-entry state, updating
index 3 (out of range) does not leave the list unchanged — JS index
assignment grows the array — so the claim that out-of-range `update`
fails with an `IndexError` and leaves the list unchanged is false. -/
theorem C5_counterexample :
    initialState.urls.length ≤ 3 ∧
    (handleUrlChange initialState 3 "x").urls ≠ initialState.urls := by
  decide

/-- Claim C5 as amended: with an out-of-range index neither operation
fails: `update` performs the JS index assignment, growing the list to
length `index + 1` (so the list does change), while `remove` leaves the
URL list unchanged. -/
theorem C5_amended_out_of_range (st : AppState) (idx : Nat) (v : String)
    (h1 : st.urls.length ≤ idx) (h2 : 1 ≤ st.urls.length) :
    (handleUrlChange st idx v).urls.length = idx + 1 ∧
    (removeUrlField st idx).urls = st.urls := by
  constructor
  · have hnl : ¬ idx < st.urls.length := by omega
    simp only [handleUrlChange, jsArraySet, hnl, if_false, List.length_append,
      List.length_replicate, List.length_cons, List.length_nil]
    omega
  · have hrem : jsRemoveIdx st.urls idx = st.urls := jsRemoveIdx_out_of_range _ _ h1
    have hne : ¬ (st.urls.length = 0) := by omega
    simp [removeUrlField, hrem, hne]

/-- Witness for the amended C5 at a concrete out-of-range index. -/
theorem C5_witness :
    (handleUrlChange { initialState with urls := ["a"] } 5 "x").urls.length = 6 ∧
    (removeUrlField { initialState with urls := ["a"] } 5).urls = ["a"] :=
  C5_amended_out_of_range { initialState with urls := ["a"] } 5 "x"
    (by decide) (by decide)

/-! ### Lemmas about the numeric-keyed error object -/

theorem lookupKey_cons (p : Nat × String) (m : List (Nat × String)) (i : Nat) :
    lookupKey (p :: m) i = if p.1 = i then some p.2 else lookupKey m i := by
  by_cases h : p.1 = i
  · simp [lookupKey, List.find?_cons_of_pos, h]
  · have hb : (p.1 == i) = false := by simpa using h
    simp [lookupKey, List.find?_cons_of_neg, hb, h]

theorem lookupKey_append (m₁ m₂ : List (Nat × String)) (i : Nat) :
    lookupKey (m₁ ++ m₂) i
      = (lookupKey m₁ i).orElse (fun _ => lookupKey m₂ i) := by
  induction m₁ with
  | nil => simp [lookupKey]
  | cons p m ih =>
    by_cases h : p.1 = i <;> simp [lookupKey_cons, h, ih]

theorem lookupKey_eraseKey_self (m : List (Nat × String)) (i : Nat) :
    lookupKey (eraseKey m i) i = none := by
  induction m with
  | nil => rfl
  | cons p m ih =>
    by_cases h : p.1 = i
    · simpa [eraseKey, List.filter_cons, h] using ih
    · have hb : (p.1 != i) = true := by simpa using h
      simpa [eraseKey, List.filter_cons, hb, lookupKey_cons, h] using ih

theorem lookupKey_eraseKey_ne (m : List (Nat × String)) (i j : Nat)
    (h : j ≠ i) : lookupKey (eraseKey m i) j = lookupKey m j := by
  induction m with
  | nil => rfl
  | cons p m ih =>
    by_cases hp : p.1 = i
    · have hb : (p.1 != i) = false := by simpa using hp
      have hpj : p.1 ≠ j := by omega
      rw [eraseKey, List.filter_cons, hb]
      rw [show lookupKey (p :: m) j = lookupKey m j from by
        rw [lookupKey_cons, if_neg hpj]]
      exact ih
    · have hb : (p.1 != i) = true := by simpa using hp
      rw [eraseKey, List.filter_cons, hb]
      show lookupKey (p :: eraseKey m i) j = lookupKey (p :: m) j
      rw [lookupKey_cons, lookupKey_cons]
      by_cases hpj : p.1 = j
      · rw [if_pos hpj, if_pos hpj]
      · rw [if_neg hpj, if_neg hpj]
        exact ih

theorem lookupKey_setKey_self (m : List (Nat × String)) (i : Nat) (v : String) :
    lookupKey (setKey m i v) i = some v := by
  rw [setKey, lookupKey_append, lookupKey_eraseKey_self]
  simp [lookupKey_cons, lookupKey, Option.orElse]

theorem lookupKey_setKey_ne (m : List (Nat × String)) (i j : Nat) (v : String)
    (h : j ≠ i) : lookupKey (setKey m i v) j = lookupKey m j := by
  have hij : i ≠ j := fun hx => h hx.symm
  rw [setKey, lookupKey_append, lookupKey_eraseKey_ne m i j h]
  cases hm : lookupKey m j <;>
    simp [lookupKey_cons, hij, lookupKey, Option.orElse]

/-- Claim C10: `remove(index)` deletes exactly the error entry keyed by
the removed index and re-keys nothing: every other key keeps its
message, while the entries above the removed index shift down one
position, so a retained error key now denotes a different entry. -/
theorem C10_remove_no_rekey (st : AppState) (idx j : Nat)
    (_hidx : idx < st.urls.length) :
    lookupKey (removeUrlField st idx).errors.urls idx = none ∧
    (j ≠ idx → lookupKey (removeUrlField st idx).errors.urls j
      = lookupKey st.errors.urls j) ∧
    (idx ≤ j → j + 1 < st.urls.length →
      (removeUrlField st idx).urls[j]? = st.urls[j + 1]?) := by
  refine ⟨?_, ?_, ?_⟩
  · simpa [removeUrlField] using lookupKey_eraseKey_self st.errors.urls idx
  · intro hj
    simpa [removeUrlField] using lookupKey_eraseKey_ne st.errors.urls idx j hj
  · intro hij hj1
    have hget : (st.urls.eraseIdx idx)[j]? = st.urls[j + 1]? :=
      eraseIdx_getElem_ge st.urls idx j hij
    have hsome : st.urls[j + 1]?.isSome = true := by
      rw [List.getElem?_eq_getElem hj1]; rfl
    have hne0 : ¬ ((jsRemoveIdx st.urls idx).length = 0) := by
      rw [jsRemoveIdx_eq_eraseIdx]
      intro h0
      rw [List.length_eq_zero.mp h0] at hget
      rw [← hget] at hsome
      simp at hsome
    simp only [removeUrlField, hne0, if_neg, if_false]
    rw [jsRemoveIdx_eq_eraseIdx]
    exact hget

/-- A concrete three-entry state with errors recorded at keys 0 and 2,
used to witness C10. -/
def c10State : AppState :=
  { urls := ["a", "b", "c"], question := "", answer := "", loading := false,
    errors := { urls := [(0, "e0"), (2, "e2")], question := "", general := "" } }

/-- Witness for C10: removing entry 0 of a three-entry list with errors
recorded at keys 0 and 2. -/
theorem C10_witness :
    lookupKey (removeUrlField c10State 0).errors.urls 0 = none ∧
    ((1 : Nat) ≠ 0 → lookupKey (removeUrlField c10State 0).errors.urls 1
      = lookupKey c10State.errors.urls 1) ∧
    ((0 : Nat) ≤ 1 → 1 + 1 < c10State.urls.length →
      (removeUrlField c10State 0).urls[1]? = c10State.urls[1 + 1]?) :=
  C10_remove_no_rekey c10State 0 1 (by decide)

/-- A concrete state that is in the Loading phase with a valid form and
a previously displayed answer, used for C4. -/
def loadingState : AppState :=
  { urls := ["https://example.com"], question := "Q", answer := "old",
    loading := true, errors := emptyErrors }

/-- Claim C4 counterexample: at a concrete Loading state with a valid
form, invoking `handleSubmit` again is not a no-op — it issues a second
service call and clears the displayed answer — so the claim that the
controller itself rejects re-entrant invocations is false. -/
theorem C4_counterexample :
    loadingState.loading = true ∧
    (handleSubmitStart loadingState).serviceCalled = true ∧
    (handleSubmitStart loadingState).state.answer ≠ loadingState.answer := by
  decide

/-- Claim C4 as amended: while Loading the submit control is disabled —
that disabling is the only protection — but the controller itself does
not reject re-entrant invocations: `handleSubmit` invoked during Loading
behaves exactly as when idle, issuing a service call iff the form
validates. -/
theorem C4_amended_guard_is_ui_only (st : AppState) (h : st.loading = true) :
    submitDisabled st = true ∧
    (handleSubmitStart st).serviceCalled = (validateForm st.urls st.question).1 := by
  constructor
  · simp [submitDisabled, h]
  · cases hv : (validateForm st.urls st.question).1 <;>
      simp [handleSubmitStart, hv]

/-- Witness for the amended C4 at the concrete Loading state. -/
theorem C4_witness :
    submitDisabled loadingState = true ∧
    (handleSubmitStart loadingState).serviceCalled
      = (validateForm loadingState.urls loadingState.question).1 :=
  C4_amended_guard_is_ui_only loadingState (by decide)

/-- A concrete state with an error recorded for the single entry, used
for C8. -/
def c8State : AppState :=
  { urls := ["bad"], question := "", answer := "", loading := false,
    errors := { urls := [(0, urlErrMsg)], question := "", general := "" } }

/-- Claim C8 counterexample: editing the erroring entry 0 to a text that
is still non-blank and invalid leaves an error recorded at index 0, so
the claim that `update` clears that index's error independently of the
validity of the new text is false. -/
theorem C8_counterexample :
    0 < c8State.urls.length ∧
    lookupKey (handleUrlChange c8State 0 "still bad").errors.urls 0 ≠ none := by
  decide

/-- Claim C8 as amended: `update(index, text)` clears the old error for
that index and immediately re-checks the new text, recording a fresh
error at that index exactly when the new text is non-blank and fails the
URL check; errors at other indices, the question error and the general
error are unchanged. -/
theorem C8_amended_update_revalidates (st : AppState) (idx j : Nat) (v : String)
    (_hidx : idx < st.urls.length) (hj : j ≠ idx) :
    lookupKey (handleUrlChange st idx v).errors.urls idx
      = (if !isBlank v && !isValidUrl v then some urlErrMsg else none) ∧
    lookupKey (handleUrlChange st idx v).errors.urls j
      = lookupKey st.errors.urls j ∧
    (handleUrlChange st idx v).errors.question = st.errors.question ∧
    (handleUrlChange st idx v).errors.general = st.errors.general := by
  refine ⟨?_, ?_, by simp [handleUrlChange], by simp [handleUrlChange]⟩
  · cases hc : (!isBlank v && !isValidUrl v) <;>
      simp [handleUrlChange, hc, lookupKey_setKey_self, lookupKey_eraseKey_self]
  · cases hc : (!isBlank v && !isValidUrl v)
    · simp [handleUrlChange, hc, lookupKey_eraseKey_ne st.errors.urls idx j hj]
    · simp [handleUrlChange, hc,
        lookupKey_setKey_ne (eraseKey st.errors.urls idx) idx j urlErrMsg hj,
        lookupKey_eraseKey_ne st.errors.urls idx j hj]

/-- Witness for the amended C8: editing the erroring entry 0 to a blank
text clears its error; key 1 and the other error fields are unchanged. -/
theorem C8_witness :
    lookupKey (handleUrlChange c8State 0 "").errors.urls 0
      = (if !isBlank "" && !isValidUrl "" then some urlErrMsg else none) ∧
    lookupKey (handleUrlChange c8State 0 "").errors.urls 1
      = lookupKey c8State.errors.urls 1 ∧
    (handleUrlChange c8State 0 "").errors.question = c8State.errors.question ∧
    (handleUrlChange c8State 0 "").errors.general = c8State.errors.general :=
  C8_amended_update_revalidates c8State 0 1 "" (by decide) (by decide)

/-- The reading of the URL check asserted by the spec (C9): the string
parses as an absolute URL and its scheme as written — before any
lower-casing — is exactly "http" or "https" under case-sensitive
comparison, so an upper-case scheme is rejected. -/
def caseSensitiveHttpUrl (s : String) : Bool :=
  (jsURLProtocol s).isSome &&
    (rawScheme s == some ("http".toList) || rawScheme s == some ("https".toList))

theorem mk_colon_eq_http (sch : List Char) :
    String.mk (sch ++ [':']) = "http:" ↔ sch = "http".toList := by
  constructor
  · intro h
    have h2 : sch ++ [':'] = "http:".toList := congrArg String.toList h
    have h3 : "http:".toList = "http".toList ++ [':'] := by decide
    exact List.append_cancel_right (h2.trans h3)
  · intro h
    subst h
    decide

theorem mk_colon_eq_https (sch : List Char) :
    String.mk (sch ++ [':']) = "https:" ↔ sch = "https".toList := by
  constructor
  · intro h
    have h2 : sch ++ [':'] = "https:".toList := congrArg String.toList h
    have h3 : "https:".toList = "https".toList ++ [':'] := by decide
    exact List.append_cancel_right (h2.trans h3)
  · intro h
    subst h
    decide

/-- Claim C9 counterexample: the source accepts "HTTPS://example.com" —
the WHATWG parser lower-cases the scheme before the case-sensitive
protocol comparison — while the claim's case-sensitive reading rejects
it. -/
theorem C9_counterexample :
    isValidUrl "HTTPS://example.com" = true ∧
    caseSensitiveHttpUrl "HTTPS://example.com" = false := by
  decide

/-- Claim C9 as amended: the URL check accepts a string iff it parses as
an absolute URL and its scheme, after the parser's ASCII lower-casing,
is exactly "http" or "https"; a scheme written in upper case is
therefore accepted. -/
theorem C9_amended_scheme_lowercased (s : String) :
    isValidUrl s = true ↔
      ((rawScheme s).map asciiLowerList = some ("http".toList) ∨
       (rawScheme s).map asciiLowerList = some ("https".toList)) ∧
      (jsURLProtocol s).isSome = true := by
  unfold isValidUrl rawScheme jsURLProtocol
  cases hsp : schemeSplit (stripURLInput s.toList) with
  | none => simp
  | some pr =>
    obtain ⟨raw, rest⟩ := pr
    by_cases hspec : specialNeedsHost (asciiLowerList raw) = true
    · by_cases hhost : hostOk rest = true
      · simp [hspec, hhost, beq_iff_eq, mk_colon_eq_http, mk_colon_eq_https]
      · simp [hspec, hhost]
    · have hnh : asciiLowerList raw ≠ "http".toList := by
        intro hx
        rw [specialNeedsHost, hx] at hspec
        simp at hspec
      have hns : asciiLowerList raw ≠ "https".toList := by
        intro hx
        rw [specialNeedsHost, hx] at hspec
        simp at hspec
      simp [hspec, beq_iff_eq, mk_colon_eq_http, mk_colon_eq_https, hnh, hns]

end WebQA
